import Mathlib

/-!
Verification of the CloudWatch log-stream tailer (`src/cloudwatch/main.py`,
`src/cloudwatch/consumer_mixpanel.py`) against its specification.

The embedding models Python dictionaries as insertion-ordered association
lists (`dictGet` returns the value of the first matching key; `dictSet`
replaces the value of an existing key in place, otherwise appends), Python
tuples of strings as `List String` (so the 1-tuple `(LOG_GROUP_NAME,)` and
the 2-tuple `(LOG_GROUP_NAME, lsn)` are distinct keys of the same type, as
in the source), and thread handles as `Nat` identifiers.
-/

namespace CWL

/-- `d.get(k)` on a Python dict modelled as an insertion-ordered
association list: the value at the first matching key, if any. -/
def dictGet {α β : Type} [DecidableEq α] : List (α × β) → α → Option β
  | [], _ => Option.none
  | (k, v) :: rest, a => if k = a then Option.some v else dictGet rest a

/-- `d[k] = v` on a Python dict: replace the value at the first matching
key in place, otherwise append the new entry at the end. -/
def dictSet {α β : Type} [DecidableEq α] (a : α) (b : β) : List (α × β) → List (α × β)
  | [] => [(a, b)]
  | (k, v) :: rest => if k = a then (a, b) :: rest else (k, v) :: dictSet a b rest

/-- A key of the `LOG_STREAM_MAP` dictionary: a Python tuple of strings.
All entries the program inserts use the 2-tuple `(log group, log stream)`,
but the discovery guard queries the 1-tuple `(LOG_GROUP_NAME,)`. -/
abbrev StreamKey := List String

/-- `LOG_STREAM_MAP`: key = stream tuple, value = `None` (no thread is
working on the stream) or a thread handle, modelled by its `Nat` id. -/
abbrev LogStreamMap := List (StreamKey × Option Nat)

/-- `LOG_STREAM_CHECKPOINT`: key = the string the code passes to
`set_checkpoint` (the log stream name), value = next token. -/
abbrev Checkpoint := List (String × String)

/-- Python truthiness of `d.get(key)` when the dict's values are `None` or
thread objects: `not d.get(key)` is true when the key is absent (`get`
returns `None`) or the stored value is `None`; a thread object is truthy. -/
def pyGetFalsy : Option (Option Nat) → Bool
  | Option.none => true
  | Option.some Option.none => true
  | Option.some (Option.some _) => false

/-- `LogStreamHandler._wanted_log_stream`: true iff `LOG_STREAMS_FILTER`
is `None` or the stream name is a member of the filter. The filter is
environment configuration, modelled as an explicit parameter. -/
def wanted_log_stream (fil : Option (List String)) (lsn : String) : Bool :=
  match fil with
  | Option.none => true
  | Option.some allow => decide (lsn ∈ allow)

/-- The body of the `for log_stream in log_streams` loop of
`LogStreamHandler._discover_log_streams`, for one listed stream name:
`if not gb.get_log_stream_map().get((LOG_GROUP_NAME,)): if wanted: map[(LOG_GROUP_NAME, lsn)] = None`.
Note the guard queries the 1-tuple key `(LOG_GROUP_NAME,)` while entries
are stored under 2-tuple keys. -/
def discover_step (g : String) (fil : Option (List String))
    (m : LogStreamMap) (lsn : String) : LogStreamMap :=
  if pyGetFalsy (dictGet m [g]) then
    if wanted_log_stream fil lsn then dictSet [g, lsn] Option.none m else m
  else m

/-- `LogStreamHandler._discover_log_streams`: one discovery tick over the
stream names listed by the source, folding `discover_step` over the map. -/
def discover_log_streams (g : String) (fil : Option (List String))
    (ls : List String) (m : LogStreamMap) : LogStreamMap :=
  ls.foldl (discover_step g fil) m

/-- `LogStreamHandler._get_new_log_streams`: the keys whose stored value
is `None`, in map order. -/
def get_new_log_streams (m : LogStreamMap) : List StreamKey :=
  (m.filter (fun kv => kv.2.isNone)).map Prod.fst

/-- State of the dispatcher: the shared map, a counter producing fresh
thread ids, and the log of `(identity, thread id)` worker starts so far. -/
structure SyncState where
  m : LogStreamMap
  nextTid : Nat
  started : List (StreamKey × Nat)
deriving DecidableEq

/-- The body of the `for log_group_name, log_stream_name in new_streams`
loop of `LogStreamHandler.sync_new_logs`: start a `write_log` thread for
the key, then `gb.set_log_stream_map(key, log_getter)`. -/
def sync_start (st : SyncState) (k : StreamKey) : SyncState :=
  ⟨dictSet k (Option.some st.nextTid) st.m, st.nextTid + 1,
    st.started ++ [(k, st.nextTid)]⟩

/-- One iteration of the `while True` loop of
`LogStreamHandler.sync_new_logs`: compute the new (value `None`) streams,
then start one worker per new stream and mark each as claimed. -/
def sync_new_logs_tick (st : SyncState) : SyncState :=
  (get_new_log_streams st.m).foldl sync_start st

/-- The concrete two-round trace: a discovery tick listing stream `"s1"`
of group `"g"`, a dispatch tick, a second discovery tick listing the same
stream, and a second dispatch tick, starting from an empty map. -/
def twoRoundTrace : SyncState :=
  let m1 := discover_log_streams "g" Option.none ["s1"] []
  let st1 := sync_new_logs_tick ⟨m1, 0, []⟩
  let m2 := discover_log_streams "g" Option.none ["s1"] st1.m
  sync_new_logs_tick ⟨m2, st1.nextTid, st1.started⟩

/-- The result of one run of `LogStreamHandler.write_log` (the per-stream
Tailer): the contents of the stream's log file, the ordered log of
`(key, token)` writes it issued against `LOG_STREAM_CHECKPOINT`, and the
checkpoint store after the run. -/
structure TailRun where
  file : String
  writes : List (String × String)
  cp : Checkpoint
deriving DecidableEq

/-- The inner `for _log in _logs` loop of `LogStreamHandler.write_log`:
append `str(_log) + chr(10)` to the file for each record in order,
flushing after each record (modelled as an immediate append). -/
def write_records (file : String) (recs : List String) : String :=
  recs.foldl (fun acc recd => acc ++ (recd ++ "\n")) file

/-- The body of the `for _logs, next_token in get_log_events(...)` loop of
`LogStreamHandler.write_log`, for one `(records page, next token)` pair:
write every record of the page to the file, then
`gb.set_checkpoint(log_stream_name, next_token)` — the key is the log
stream name alone; the log group name is not part of the key. -/
def write_page (log_stream_name : String) (r : TailRun)
    (page : List String × String) : TailRun :=
  ⟨write_records r.file page.1,
    r.writes ++ [(log_stream_name, page.2)],
    dictSet log_stream_name page.2 r.cp⟩

/-- `LogStreamHandler.write_log`: the Tailer for one stream. `pages` is
the sequence of `(records, nextToken)` pairs the source yields for
`(log_group_name, log_stream_name)`; each record is its `str(...)` form.
`fileInit` is the file's content when opened in append mode (empty for a
freshly created file) and `cp0` the checkpoint store at start. The group
name is used only to fetch the pages, never in the checkpoint key. -/
def write_log (log_group_name log_stream_name : String)
    (pages : List (List String × String)) (fileInit : String)
    (cp0 : Checkpoint) : TailRun :=
  pages.foldl (write_page log_stream_name) ⟨fileInit, [], cp0⟩

/-- Written from the spec's words for comparison with the code's file
output: "the concatenation, in yield order, of the textual form of every
record followed by a newline". -/
def recordLines : List String → String
  | [] => ""
  | recd :: rest => (recd ++ "\n") ++ recordLines rest

/-- The two module-level dictionary objects of `main.py`:
`LOG_STREAM_MAP` and `LOG_STREAM_CHECKPOINT`. A field holds the current
contents of the corresponding heap object. -/
structure Globals where
  logStreamMapObj : LogStreamMap
  checkpointObj : Checkpoint
deriving DecidableEq

/-- `GlobalManager.set_log_stream_map`: `LOG_STREAM_MAP[key] = value`
under the lock, mutating the shared dictionary object. -/
def set_log_stream_map (k : StreamKey) (v : Option Nat) (s : Globals) : Globals :=
  ⟨dictSet k v s.logStreamMapObj, s.checkpointObj⟩

/-- `GlobalManager.set_checkpoint`: `LOG_STREAM_CHECKPOINT[key] = value`
under the lock, mutating the shared dictionary object. -/
def set_checkpoint (k : String) (v : String) (s : Globals) : Globals :=
  ⟨s.logStreamMapObj, dictSet k v s.checkpointObj⟩

/-- `GlobalManager.get_log_stream_map` executes `return LOG_STREAM_MAP`:
the caller receives the shared dictionary object itself, not a copy.
Observing that returned reference while the globals are in state `s`
therefore yields the object's current contents. -/
def get_log_stream_map_observed (s : Globals) : LogStreamMap :=
  s.logStreamMapObj

/-- `GlobalManager.get_checkpoint` executes `return LOG_STREAM_CHECKPOINT`:
the caller receives the shared dictionary object itself, not a copy.
Observing that returned reference while the globals are in state `s`
yields the object's current contents. -/
def get_checkpoint_observed (s : Globals) : Checkpoint :=
  s.checkpointObj

/-- One call of `LogStreamHandler._discover_log_streams` when the source's
`get_log_streams` either raises (`Except.error`) or returns a list of
stream names: the method body has no `try`/`except`, so a raised listing
exception propagates to the caller unchanged. -/
def discover_log_streams_run (g : String) (fil : Option (List String))
    (listing : Except String (List String)) (m : LogStreamMap) :
    Except String LogStreamMap :=
  match listing with
  | Except.error e => Except.error e
  | Except.ok ls => Except.ok (discover_log_streams g fil ls m)

/-- `LogStreamHandler.discover_logs`, run over a finite prefix of ticks:
the loop body `self._discover_log_streams(); time.sleep(...)` has no
`try`/`except` either, so the first tick whose listing raises terminates
the loop with that exception; `Except.ok` means every supplied tick was
processed and the loop would keep running. -/
def discover_logs (g : String) (fil : Option (List String))
    (listings : List (Except String (List String))) (m : LogStreamMap) :
    Except String LogStreamMap :=
  match listings with
  | [] => Except.ok m
  | l :: rest =>
    match discover_log_streams_run g fil l m with
    | Except.error e => Except.error e
    | Except.ok m2 => discover_logs g fil rest m2

/-- Python `d.update(u)`: set every entry of `u` into `d`, in `u`'s
order (existing keys keep their position, absent keys are appended). -/
def dict_update (d u : Checkpoint) : Checkpoint :=
  u.foldl (fun acc kv => dictSet kv.1 kv.2 acc) d

/-- `json.dumps` of one string: a double quote, the characters with `"`
and backslash escaped, a double quote. -/
def jsonUnicodeChar (c : Char) : String :=
  if c = '\\' then "\\\\" else if c = '"' then "\\\"" else String.singleton c

/-- `json.dumps` of a string value. -/
def jsonStr (s : String) : String :=
  "\"" ++ String.join (s.data.map jsonUnicodeChar) ++ "\""

/-- One serialized `"key": "value"` pair, with `json.dumps`'s default
`": "` separator. -/
def jsonEntry (kv : String × String) : String :=
  jsonStr kv.1 ++ ": " ++ jsonStr kv.2

/-- The serialized entries of a dict in insertion order, joined by
`json.dumps`'s default `", "` separator. -/
def jsonEntries : Checkpoint → String
  | [] => ""
  | [kv] => jsonEntry kv
  | kv :: rest => jsonEntry kv ++ ", " ++ jsonEntries rest

/-- `json.dumps` of a string-to-string dict in insertion order. -/
def json_dumps (d : Checkpoint) : String :=
  "\x7b" ++ jsonEntries d ++ "\x7d"

/-- The serialized form of every entry after the first one: empty when
there are no further entries, otherwise the `", "` separator followed by
their serialization. -/
def jsonEntriesTail : Checkpoint → String
  | [] => ""
  | kv :: rest => ", " ++ jsonEntries (kv :: rest)

/-- One iteration of the `while True` loop of
`LogStreamHandler.persist_state`: `state["modified_time"] = time.asctime()`
(the wall-clock string is the parameter `t`), then
`state.update(gb.get_checkpoint())`. The `state` dict is created once
before the loop and carried across iterations. -/
def persist_cycle (cp : Checkpoint) (t : String) (state : Checkpoint) : Checkpoint :=
  dict_update (dictSet "modified_time" t state) cp

/-- The two files written by two consecutive `persist_state` cycles that
observe the same checkpoint store `cp`, with wall-clock strings `t1` and
`t2`, starting from the freshly created empty `state` dict: each cycle
writes `json.dumps(state)` wholesale to the destination. -/
def persist_outputs (cp : Checkpoint) (t1 t2 : String) : String × String :=
  let s1 := persist_cycle cp t1 []
  let s2 := persist_cycle cp t2 s1
  (json_dumps s1, json_dumps s2)

/-- A Python value as it reaches `MixpanelConsumer.should_report`:
`None`, a string, or an integer (from the parsed JSON message). -/
inductive PyVal where
  | pynone
  | str (s : String)
  | int (n : Int)
deriving DecidableEq

/-- Python truthiness: `None` is falsy, a string is truthy iff non-empty,
an integer is truthy iff non-zero. -/
def PyVal.truthy : PyVal → Bool
  | PyVal.pynone => false
  | PyVal.str s => decide (s ≠ "")
  | PyVal.int n => decide (n ≠ 0)

/-- `MixpanelConsumer.should_report(url, app_id=None)`:
`if not url: return False`, `if url == chr(47): return False`,
`if not app_id: return False`, `return True`. -/
def should_report (url : PyVal) (app_id : PyVal) : Bool :=
  if !url.truthy then false
  else if url = PyVal.str "/" then false
  else if !app_id.truthy then false
  else true

/-! Association-list (Python dict) lemmas. -/

theorem dictGet_dictSet_self {α β : Type} [DecidableEq α] (a : α) (b : β)
    (m : List (α × β)) : dictGet (dictSet a b m) a = Option.some b := by
  induction m with
  | nil => simp [dictGet, dictSet]
  | cons kv rest ih =>
    obtain ⟨k, v⟩ := kv
    by_cases hk : k = a
    · simp [dictGet, dictSet, hk]
    · simp [dictGet, dictSet, hk, ih]

theorem dictGet_dictSet_ne {α β : Type} [DecidableEq α] {a a' : α} (b : β)
    (m : List (α × β)) (h : a' ≠ a) :
    dictGet (dictSet a b m) a' = dictGet m a' := by
  have h2 : ¬(a = a') := fun hc => h hc.symm
  induction m with
  | nil => simp [dictGet, dictSet, h2]
  | cons kv rest ih =>
    obtain ⟨k, v⟩ := kv
    by_cases hk : k = a
    · subst hk
      simp [dictGet, dictSet, h2]
    · simp [dictGet, dictSet, hk, ih]

theorem dictSet_dictSet_same {α β : Type} [DecidableEq α] (a : α) (b b' : β)
    (m : List (α × β)) : dictSet a b' (dictSet a b m) = dictSet a b' m := by
  induction m with
  | nil => simp [dictSet]
  | cons kv rest ih =>
    obtain ⟨k, v⟩ := kv
    by_cases hk : k = a
    · simp [dictSet, hk]
    · simp [dictSet, hk, ih]

/-! Tailer (`write_log`) lemmas. -/

theorem write_records_eq (file : String) (recs : List String) :
    write_records file recs = file ++ recordLines recs := by
  induction recs generalizing file with
  | nil => simp [write_records, recordLines]
  | cons r rest ih =>
    simp only [write_records, List.foldl_cons] at ih ⊢
    rw [ih, recordLines, String.append_assoc]

theorem recordLines_append (l1 l2 : List String) :
    recordLines (l1 ++ l2) = recordLines l1 ++ recordLines l2 := by
  induction l1 with
  | nil => simp [recordLines]
  | cons r l1 ih => simp [recordLines, ih, String.append_assoc]

theorem write_log_foldl_file (s : String) (pages : List (List String × String))
    (r : TailRun) :
    (pages.foldl (write_page s) r).file
      = r.file ++ recordLines (pages.map Prod.fst).flatten := by
  induction pages generalizing r with
  | nil => simp [recordLines]
  | cons p ps ih =>
    simp only [List.foldl_cons]
    rw [ih]
    show write_records r.file p.1 ++ _ = _
    rw [write_records_eq, List.map_cons, List.flatten_cons, recordLines_append,
      String.append_assoc]

theorem write_log_foldl_writes (s : String) (pages : List (List String × String))
    (r : TailRun) :
    (pages.foldl (write_page s) r).writes
      = r.writes ++ pages.map (fun p => (s, p.2)) := by
  induction pages generalizing r with
  | nil => simp
  | cons p ps ih =>
    simp only [List.foldl_cons]
    rw [ih]
    simp [write_page]

theorem write_log_foldl_cp (s : String) (pages : List (List String × String))
    (r : TailRun) :
    (pages.foldl (write_page s) r).cp
      = ((pages.map Prod.snd).getLast?).elim r.cp (fun t => dictSet s t r.cp) := by
  induction pages generalizing r with
  | nil => simp
  | cons p ps ih =>
    simp only [List.foldl_cons]
    rw [ih]
    cases ps with
    | nil => simp [write_page]
    | cons q qs =>
      have hsome : ((q :: qs).map Prod.snd).getLast?.isSome := by
        rw [List.getLast?_isSome]
        simp
      rcases hlast : ((q :: qs).map Prod.snd).getLast? with _ | t
      · rw [hlast] at hsome
        simp at hsome
      · simp only [List.map_cons] at hlast ⊢
        rw [List.getLast?_cons_cons, hlast]
        simp [write_page, Option.elim, dictSet_dictSet_same]

/-! Discovery lemmas: the guard key `[g]` is never written (all writes use
2-tuple keys `[g, lsn]`), so its lookup is stable across a tick. -/

theorem discover_step_guard (g : String) (fil : Option (List String))
    (m : LogStreamMap) (lsn : String) :
    dictGet (discover_step g fil m lsn) [g] = dictGet m [g] := by
  unfold discover_step
  by_cases hg : pyGetFalsy (dictGet m [g]) = true
  · by_cases hw : wanted_log_stream fil lsn = true
    · simp only [hg, hw, if_true]
      exact dictGet_dictSet_ne _ _ (by simp)
    · simp [hg, hw]
  · simp [hg]

theorem discover_step_isSome (g : String) (fil : Option (List String))
    (lsn : String) (k : StreamKey) (m : LogStreamMap)
    (hg : dictGet m [g] = Option.none) :
    (dictGet (discover_step g fil m lsn) k).isSome = true ↔
      ((dictGet m k).isSome = true ∨
        (k = [g, lsn] ∧ wanted_log_stream fil lsn = true)) := by
  unfold discover_step
  rw [hg]
  simp only [pyGetFalsy, if_true]
  by_cases hw : wanted_log_stream fil lsn = true
  · rw [if_pos hw]
    by_cases hk : k = [g, lsn]
    · subst hk
      simp [dictGet_dictSet_self, hw]
    · rw [dictGet_dictSet_ne _ _ hk]
      simp [hk]
  · simp [hw]

theorem discover_fold_isSome (g : String) (fil : Option (List String))
    (ls : List String) (m : LogStreamMap) (k : StreamKey)
    (hg : dictGet m [g] = Option.none) :
    (dictGet (discover_log_streams g fil ls m) k).isSome = true ↔
      ((dictGet m k).isSome = true ∨
        ∃ lsn, lsn ∈ ls ∧ k = [g, lsn] ∧ wanted_log_stream fil lsn = true) := by
  induction ls generalizing m with
  | nil => simp [discover_log_streams]
  | cons l ls ih =>
    have hstep : discover_log_streams g fil (l :: ls) m
        = discover_log_streams g fil ls (discover_step g fil m l) := rfl
    have hg' : dictGet (discover_step g fil m l) [g] = Option.none := by
      rw [discover_step_guard]
      exact hg
    rw [hstep, ih (discover_step g fil m l) hg',
      discover_step_isSome g fil l k m hg]
    constructor
    · rintro ((hB | ⟨hk, hw⟩) | ⟨lsn, hmem, hk, hw⟩)
      · exact Or.inl hB
      · exact Or.inr ⟨l, List.mem_cons_self l ls, hk, hw⟩
      · exact Or.inr ⟨lsn, List.mem_cons_of_mem l hmem, hk, hw⟩
    · rintro (hB | ⟨lsn, hmem, hk, hw⟩)
      · exact Or.inl (Or.inl hB)
      · rcases List.mem_cons.mp hmem with rfl | hmem'
        · exact Or.inl (Or.inr ⟨hk, hw⟩)
        · exact Or.inr ⟨lsn, hmem', hk, hw⟩

/-! Persistence (`persist_state`) lemmas. -/

theorem dict_update_cons (k0 v0 : String) (d u : Checkpoint)
    (h : k0 ∉ u.map Prod.fst) :
    dict_update ((k0, v0) :: d) u = (k0, v0) :: dict_update d u := by
  induction u generalizing d with
  | nil => rfl
  | cons kv u ih =>
    obtain ⟨k, v⟩ := kv
    simp only [List.map_cons, List.mem_cons, not_or] at h
    have hne : ¬(k0 = k) := h.1
    show dict_update (dictSet k v ((k0, v0) :: d)) u
        = (k0, v0) :: dict_update (dictSet k v d) u
    rw [show dictSet k v ((k0, v0) :: d) = (k0, v0) :: dictSet k v d from by
      simp [dictSet, hne]]
    exact ih (dictSet k v d) (by simpa using h.2)

theorem dict_update_nil_left (u : Checkpoint) (h : (u.map Prod.fst).Nodup) :
    dict_update [] u = u := by
  induction u with
  | nil => rfl
  | cons kv u ih =>
    obtain ⟨k, v⟩ := kv
    simp only [List.map_cons, List.nodup_cons] at h
    show dict_update (dictSet k v []) u = (k, v) :: u
    rw [show dictSet k v ([] : Checkpoint) = (k, v) :: [] from rfl]
    rw [dict_update_cons k v [] u h.1]
    rw [ih h.2]

theorem dictSet_eq_self_of_dictGet {k : String} {v : String} (d : Checkpoint)
    (h : dictGet d k = Option.some v) : dictSet k v d = d := by
  induction d with
  | nil => simp [dictGet] at h
  | cons kv d ih =>
    obtain ⟨k', v'⟩ := kv
    by_cases hk : k' = k
    · subst hk
      have hv : v' = v := by simpa [dictGet] using h
      subst hv
      simp [dictSet]
    · simp only [dictGet, if_neg hk] at h
      simp [dictSet, hk, ih h]

theorem dictGet_of_nodup (d : Checkpoint) (h : (d.map Prod.fst).Nodup) :
    ∀ kv ∈ d, dictGet d kv.1 = Option.some kv.2 := by
  induction d with
  | nil => simp
  | cons kv0 d ih =>
    obtain ⟨k0, v0⟩ := kv0
    simp only [List.map_cons, List.nodup_cons] at h
    intro kv hmem
    rcases List.mem_cons.mp hmem with rfl | hmem'
    · simp [dictGet]
    · have hne : ¬(k0 = kv.1) := by
        intro hc
        exact h.1 (hc ▸ List.mem_map_of_mem Prod.fst hmem')
      simp only [dictGet, if_neg hne]
      exact ih h.2 kv hmem'

theorem dict_update_eq_self (d u : Checkpoint)
    (h : ∀ kv ∈ u, dictGet d kv.1 = Option.some kv.2) :
    dict_update d u = d := by
  induction u with
  | nil => rfl
  | cons kv u ih =>
    show dict_update (dictSet kv.1 kv.2 d) u = d
    rw [dictSet_eq_self_of_dictGet d (h kv (List.mem_cons_self kv u))]
    exact ih (fun kv' hm => h kv' (List.mem_cons_of_mem _ hm))

theorem persist_cycle_first (cp : Checkpoint) (t : String)
    (hmt : "modified_time" ∉ cp.map Prod.fst)
    (hnd : (cp.map Prod.fst).Nodup) :
    persist_cycle cp t [] = ("modified_time", t) :: cp := by
  unfold persist_cycle
  rw [show dictSet "modified_time" t ([] : Checkpoint)
      = ("modified_time", t) :: [] from rfl]
  rw [dict_update_cons _ _ _ _ hmt, dict_update_nil_left cp hnd]

theorem persist_cycle_second (cp : Checkpoint) (t1 t2 : String)
    (hmt : "modified_time" ∉ cp.map Prod.fst)
    (hnd : (cp.map Prod.fst).Nodup) :
    persist_cycle cp t2 (("modified_time", t1) :: cp)
      = ("modified_time", t2) :: cp := by
  unfold persist_cycle
  rw [show dictSet "modified_time" t2 (("modified_time", t1) :: cp)
      = ("modified_time", t2) :: cp from by simp [dictSet]]
  rw [dict_update_cons _ _ _ _ hmt]
  rw [dict_update_eq_self cp cp (dictGet_of_nodup cp hnd)]

/-! Claim theorems. -/

/-- C1: the claim says at most one Tailer worker is ever started per
StreamIdentity. The code violates it: the guard of
`_discover_log_streams` tests `LOG_STREAM_MAP.get((LOG_GROUP_NAME,))` — a
1-tuple key that is never stored — so every discovery tick resets every
listed stream's entry to `None`, even one already claimed by a worker. In
the concrete two-round trace (discover `["s1"]`, dispatch, discover
`["s1"]` again, dispatch) the dispatcher starts two workers for the
single identity `("g", "s1")`. -/
theorem c1_duplicate_worker_per_identity :
    twoRoundTrace.started = [(["g", "s1"], 0), (["g", "s1"], 1)] := rfl

/-- C2 counterexample: the claim says checkpoint writes are keyed by the
full (group, stream) identity, so same-named streams in different groups
never overwrite each other. In the code `write_log` calls
`gb.set_checkpoint(log_stream_name, next_token)`: after a Tailer for
`("g1", "s")` checkpoints `"t1"` and a Tailer for `("g2", "s")`
checkpoints `"t2"`, the store holds the single entry `("s", "t2")` — the
first group's checkpoint was overwritten. -/
theorem c2_checkpoint_key_collision :
    (write_log "g1" "s" [(["r1"], "t1")] "" []).cp = [("s", "t1")] ∧
    (write_log "g2" "s" [(["r2"], "t2")] ""
        ((write_log "g1" "s" [(["r1"], "t1")] "" []).cp)).cp = [("s", "t2")] :=
  ⟨rfl, rfl⟩

/-- C2 amended: every checkpoint write performed by a Tailer uses the log
stream name alone as the key (the log group name is not part of the key),
so two streams with the same stream name in different log groups share a
single checkpoint entry whose value is the last token either Tailer
yielded, and the store never holds more than that one entry for them. -/
theorem c2_checkpoint_keyed_by_stream_name_only
    (g1 g2 s : String) (pages1 pages2 : List (List String × String))
    (init1 init2 : String) (cp0 : Checkpoint) :
    ((write_log g1 s pages1 init1 cp0).writes).map Prod.fst
        = pages1.map (fun _ => s) ∧
    dictGet (write_log g2 s pages2 init2
        ((write_log g1 s pages1 init1 []).cp)).cp s
      = ((pages1 ++ pages2).map Prod.snd).getLast? ∧
    (write_log g2 s pages2 init2
        ((write_log g1 s pages1 init1 []).cp)).cp.length ≤ 1 := by
  refine ⟨?_, ?_, ?_⟩
  · rw [write_log, write_log_foldl_writes]
    simp only [List.nil_append, List.map_map]
    rfl
  · rw [write_log, write_log, write_log_foldl_cp, write_log_foldl_cp]
    rw [List.map_append, List.getLast?_append]
    cases h2 : (pages2.map Prod.snd).getLast? with
    | none =>
      cases h1 : (pages1.map Prod.snd).getLast? with
      | none => simp [dictGet]
      | some t1 => simp [dictGet_dictSet_self]
    | some t2 =>
      cases h1 : (pages1.map Prod.snd).getLast? with
      | none => simp [dictGet_dictSet_self]
      | some t1 => simp [dictGet_dictSet_self]
  · rw [write_log, write_log, write_log_foldl_cp, write_log_foldl_cp]
    cases h2 : (pages2.map Prod.snd).getLast? with
    | none =>
      cases h1 : (pages1.map Prod.snd).getLast? with
      | none => simp
      | some t1 => simp [dictSet]
    | some t2 =>
      cases h1 : (pages1.map Prod.snd).getLast? with
      | none => simp [dictSet]
      | some t1 => simp [dictSet]

/-- C3 counterexample: the claim says `get_log_stream_map` and
`get_checkpoint` return a point-in-time copy unchanged by later
mutations. Both methods execute `return <global dict>`, handing the
caller the live object: starting from empty stores, after one `set_*`
mutation the contents observed through the previously returned reference
differ from what was observed at call time. -/
theorem c3_snapshot_is_not_a_copy :
    ¬(get_log_stream_map_observed
        (set_log_stream_map ["g", "s1"] Option.none ⟨[], []⟩)
      = get_log_stream_map_observed ⟨[], []⟩) ∧
    ¬(get_checkpoint_observed (set_checkpoint "s1" "tok1" ⟨[], []⟩)
      = get_checkpoint_observed ⟨[], []⟩) := by
  exact ⟨by simp [get_log_stream_map_observed, set_log_stream_map, dictSet],
    by simp [get_checkpoint_observed, set_checkpoint, dictSet]⟩

/-- C3 amended: `get_log_stream_map` and `get_checkpoint` return the live
underlying dictionary object itself, not a copy: every `set_*` mutation
is immediately visible through a previously returned reference, so
iteration by the dispatcher, persister, and health reporter operates on
the live structure. -/
theorem c3_getters_return_live_object (s : Globals) (k : StreamKey)
    (v : Option Nat) (k2 : String) (v2 : String) :
    get_log_stream_map_observed (set_log_stream_map k v s)
        = dictSet k v (get_log_stream_map_observed s) ∧
    get_checkpoint_observed (set_checkpoint k2 v2 s)
        = dictSet k2 v2 (get_checkpoint_observed s) :=
  ⟨rfl, rfl⟩

/-- C4 counterexample: the claim says a raised listing exception never
terminates the `discover_logs` loop. Neither `discover_logs` nor
`_discover_log_streams` contains a `try`/`except`, so the first tick
whose `get_log_streams` call raises ends the loop with that exception:
with a single raising tick the loop terminates exceptionally instead of
continuing. -/
theorem c4_listing_error_terminates_loop :
    discover_logs "g" Option.none [Except.error "boom"] []
        = Except.error "boom" ∧
    (discover_logs "g" Option.none [Except.error "boom"] []).isOk = false :=
  ⟨rfl, rfl⟩

/-- C4 amended: a listing exception raised by the source during a
discovery tick propagates uncaught out of `discover_logs` and terminates
the loop immediately: whatever ticks follow are never processed. -/
theorem c4_listing_error_propagates (g : String) (fil : Option (List String))
    (e : String) (rest : List (Except String (List String)))
    (m : LogStreamMap) :
    discover_logs g fil (Except.error e :: rest) m = Except.error e := rfl

/-- C5: the claim says registering an already-present identity is an
idempotent no-op that leaves the entry's value unchanged. The code
violates it for claimed entries: because the discovery guard queries the
never-stored 1-tuple key `(LOG_GROUP_NAME,)`, a discovery tick that lists
`"s1"` again overwrites the claimed entry `(["g","s1"], some 0)` back to
`None`, changing its value. -/
theorem c5_reregistration_overwrites_claimed :
    dictGet [((["g", "s1"] : StreamKey), Option.some 0)] ["g", "s1"]
        = Option.some (Option.some 0) ∧
    discover_log_streams "g" Option.none ["s1"]
        [(["g", "s1"], Option.some 0)]
      = [(["g", "s1"], Option.none)] :=
  ⟨rfl, rfl⟩

/-- C6: for one stream processed by its Tailer, the sequence of
`(key, token)` checkpoint writes is exactly one write per fetched page
carrying that page's nextToken, in yield order — no gaps, no reordering —
and the final checkpoint value stored for the stream is the last yielded
token (e.g. `"tok2"` for pages `(["rec1"],"tok1"), (["rec2"],"tok2")`). -/
theorem c6_checkpoint_token_sequence (g s : String)
    (pages : List (List String × String)) :
    (write_log g s pages "" []).writes = pages.map (fun p => (s, p.2)) ∧
    dictGet (write_log g s pages "" []).cp s
      = (pages.map Prod.snd).getLast? := by
  constructor
  · rw [write_log, write_log_foldl_writes]
    simp
  · rw [write_log, write_log_foldl_cp]
    cases h : (pages.map Prod.snd).getLast? with
    | none => simp [dictGet]
    | some t => simp [dictGet_dictSet_self]

/-- C7: the stream's log file after the Tailer finishes (starting from a
freshly created empty file) equals the concatenation, in yield order, of
the textual form of every record followed by a newline. -/
theorem c7_file_content_roundtrip (g s : String)
    (pages : List (List String × String)) :
    (write_log g s pages "" []).file
      = recordLines (pages.map Prod.fst).flatten := by
  rw [write_log, write_log_foldl_file]
  exact String.empty_append _

/-- C10: `MixpanelConsumer.should_report(url, app_id)` returns `True` iff
`url` is truthy, `url` is not the string `"/"`, and `app_id` is truthy;
in every other case (falsy `url`, `url == "/"`, falsy or `None`
`app_id`) it returns `False`. -/
theorem c10_should_report_iff (url app_id : PyVal) :
    should_report url app_id = true ↔
      (url.truthy = true ∧ url ≠ PyVal.str "/" ∧ app_id.truthy = true) := by
  unfold should_report
  by_cases h1 : url.truthy = true
  · by_cases h2 : url = PyVal.str "/"
    · simp [h1, h2]
    · by_cases h3 : app_id.truthy = true
      · simp [h1, h2, h3]
      · simp [h1, h2, h3]
  · simp [h1]

/-- C8: the allow-list filter is applied at discovery. Concretely, one
discovery tick with allow-list `{"streamA"}` over listed streams
`["streamA", "streamB"]` registers only the identity for `"streamA"`;
in general, starting from an empty catalog, an identity is registered
after one tick if and only if it is `(group, lsn)` for some listed stream
name `lsn` that passes the filter — i.e. no allow-list is configured or
the stream name is in the allow-list. -/
theorem c8_filter_registration :
    discover_log_streams "g" (Option.some ["streamA"]) ["streamA", "streamB"] []
        = [(["g", "streamA"], Option.none)] ∧
    ∀ (g : String) (fil : Option (List String)) (ls : List String)
        (k : StreamKey),
      (dictGet (discover_log_streams g fil ls []) k).isSome = true ↔
        ∃ lsn, lsn ∈ ls ∧ k = [g, lsn] ∧
          (fil = Option.none ∨
            ∃ allow, fil = Option.some allow ∧ lsn ∈ allow) := by
  constructor
  · rfl
  · intro g fil ls k
    rw [discover_fold_isSome g fil ls [] k rfl]
    have hw : ∀ lsn, wanted_log_stream fil lsn = true ↔
        (fil = Option.none ∨ ∃ allow, fil = Option.some allow ∧ lsn ∈ allow) := by
      intro lsn
      cases fil with
      | none => simp [wanted_log_stream]
      | some allow => simp [wanted_log_stream]
    simp [dictGet, hw]

/-- C9: if the checkpoint store is unchanged between two consecutive
persistence cycles, the two serialized state files written by
`persist_state` are byte-identical except for the value of the
`modified_time` field: both are `pre ++ <serialized timestamp> ++ post`
for the same `pre` and `post`. Hypotheses: the snapshotted store's keys
(stream names) are distinct and none of them is the reserved key
`"modified_time"`. -/
theorem c9_persist_idempotent (cp : Checkpoint) (t1 t2 : String)
    (hmt : "modified_time" ∉ cp.map Prod.fst)
    (hnd : (cp.map Prod.fst).Nodup) :
    ∃ pre post,
      (persist_outputs cp t1 t2).1 = pre ++ jsonStr t1 ++ post ∧
      (persist_outputs cp t1 t2).2 = pre ++ jsonStr t2 ++ post := by
  have h1 : (persist_outputs cp t1 t2).1
      = json_dumps (("modified_time", t1) :: cp) := by
    simp [persist_outputs, persist_cycle_first cp t1 hmt hnd]
  have h2 : (persist_outputs cp t1 t2).2
      = json_dumps (("modified_time", t2) :: cp) := by
    simp [persist_outputs, persist_cycle_first cp t1 hmt hnd,
      persist_cycle_second cp t1 t2 hmt hnd]
  refine ⟨"\x7b" ++ jsonStr "modified_time" ++ ": ", jsonEntriesTail cp ++ "\x7d",
    ?_, ?_⟩
  · rw [h1]
    cases cp with
    | nil =>
      simp [json_dumps, jsonEntries, jsonEntry, jsonEntriesTail,
        String.append_assoc]
    | cons kv rest =>
      simp [json_dumps, jsonEntries, jsonEntry, jsonEntriesTail,
        String.append_assoc]
  · rw [h2]
    cases cp with
    | nil =>
      simp [json_dumps, jsonEntries, jsonEntry, jsonEntriesTail,
        String.append_assoc]
    | cons kv rest =>
      simp [json_dumps, jsonEntries, jsonEntry, jsonEntriesTail,
        String.append_assoc]

/-- Witness for C9 at a concrete input: one checkpointed stream
`("s1", "tok2")` and two distinct wall-clock strings. -/
theorem c9_persist_idempotent_witness :
    ∃ pre post,
      (persist_outputs [("s1", "tok2")] "TimeA" "TimeB").1
        = pre ++ jsonStr "TimeA" ++ post ∧
      (persist_outputs [("s1", "tok2")] "TimeA" "TimeB").2
        = pre ++ jsonStr "TimeB" ++ post :=
  c9_persist_idempotent [("s1", "tok2")] "TimeA" "TimeB" (by decide) (by decide)

end CWL
